import Mathlib

/-!
Verification development for the ppt-lecture-generator repository.

The frontend service layer (`src/frontend/src/services/taskService.ts` and
`src/frontend/src/types/index.ts`) is embedded directly from the TypeScript
source.  The backend generation pipeline (AnalysisClient, ContextTracker,
Orchestrator, TaskController) is not present under `src/`; those components
are modelled from the specification, as marked on each definition.
-/

namespace PPT

/-- Task status enumeration, embedded from
`src/frontend/src/types/index.ts` lines 67-73 (`enum TaskStatus`):
pending, processing, completed, failed, cancelled. -/
inductive TaskStatus where
  | pending
  | processing
  | completed
  | failed
  | cancelled
deriving DecidableEq

/-- Task record, embedded from `src/frontend/src/types/index.ts`
(`interface Task`), keeping the fields the task service reads
(`id`, `file_id`, `status`, `progress`); the remaining optional string
fields are never inspected by the verified operations. -/
structure Task where
  id : Nat
  file_id : Nat
  status : TaskStatus
  progress : Nat
deriving DecidableEq

/-- Shape of the statistics record built by `TaskService.getTaskStats`
(`src/frontend/src/services/taskService.ts` lines 109-115). -/
structure TaskStats where
  total : Nat
  pending : Nat
  processing : Nat
  completed : Nat
  failed : Nat
deriving DecidableEq

namespace TaskService

/-- One step of the `tasks.forEach` switch in `TaskService.getTaskStats`
(`taskService.ts` lines 117-132): increments the counter matching the
task status; the switch has no case for `CANCELLED`, so a cancelled task
leaves the accumulator unchanged. -/
def statsStep (st : TaskStats) (t : Task) : TaskStats :=
  match t.status with
  | .pending => { st with pending := st.pending + 1 }
  | .processing => { st with processing := st.processing + 1 }
  | .completed => { st with completed := st.completed + 1 }
  | .failed => { st with failed := st.failed + 1 }
  | .cancelled => st

/-- `TaskService.getTaskStats` (`taskService.ts` lines 98-135) over the
task list fetched from the API: `total` is the list length and the four
counters start at zero and are folded over the list by `statsStep`. -/
def getTaskStats (tasks : List Task) : TaskStats :=
  tasks.foldl statsStep
    { total := tasks.length, pending := 0, processing := 0,
      completed := 0, failed := 0 }

/-- Error raised past an awaited API call (`api.post` rejecting). -/
inductive ApiError where
  | httpError (code : Nat)
  | networkError
deriving DecidableEq

/-- `TaskService.createAndStartTask` (`taskService.ts` lines 75-93), with
the two awaited API calls abstracted as oracles: `create` is the result
of the `createTask` call, `start` the result of `startTask` on the
created task.  An error from `create` propagates (no try/catch around
step 1); the try/catch around `startTask` becomes a match on `start`,
returning the created task with `started := false` instead of
propagating. -/
def createAndStartTask (create : Except ApiError Task)
    (start : Task → Except ApiError Unit) :
    Except ApiError (Task × Bool) :=
  match create with
  | .error e => .error e
  | .ok task =>
    match start task with
    | .ok _ => .ok (task, true)
    | .error _ => .ok (task, false)

end TaskService

/-- Modelled from the spec: the `Slide` record of §3 — the backend slide
type is not under `src/`.  Fields follow the spec's data model: 0-based
index, extracted text, and element-hint counts of charts, tables and
images.  The opaque image payload is omitted: the orchestration logic
never inspects it. -/
structure Slide where
  index : Nat
  extracted_text : String
  chart_count : Nat
  table_count : Nat
  image_count : Nat
deriving DecidableEq

/-- Modelled from the spec: outcome status of one slide (§3,
`SlideResult.status: success|failed`). -/
inductive SlideStatus where
  | success
  | failed
deriving DecidableEq

/-- Modelled from the spec: error kinds returned by AnalysisClient (§4.1:
`transient_exhausted`, `permanent`, `timeout`). -/
inductive AnalysisErrorKind where
  | transient_exhausted
  | permanent
  | timeout
deriving DecidableEq

/-- Modelled from the spec: the payload of a successful AnalysisClient
call (§4.1 `SlideAnalysis`): narration text and the concepts it
introduces. -/
structure SlideAnalysis where
  narration_text : String
  concepts : List String
deriving DecidableEq

/-- Modelled from the spec: `SlideResult` (§3): slide index, narration,
non-negative duration, concepts introduced, status, and the error kind
when failed. -/
structure SlideResult where
  slide_index : Nat
  narration_text : String
  duration_minutes : ℚ
  concepts_introduced : List String
  status : SlideStatus
  error_kind : Option AnalysisErrorKind
deriving DecidableEq

/-- Modelled from the spec: `RunContext` held by ContextTracker (§3):
total time budget, elapsed minutes, taught concepts, last slide summary,
and the ordered per-slide minute allocations. -/
structure RunContext where
  total_budget_minutes : ℚ
  elapsed_minutes : ℚ
  taught_concepts : List String
  last_slide_summary : String
  slide_time_allocations : List ℚ
deriving DecidableEq

/-- Fresh run context for a given budget: nothing elapsed, nothing
taught. -/
def RunContext.init (budget : ℚ) : RunContext :=
  { total_budget_minutes := budget, elapsed_minutes := 0,
    taught_concepts := [], last_slide_summary := "",
    slide_time_allocations := [] }

/-- Whether a slide's element hints flag a chart or a table (§4.2). -/
def Slide.hasChartOrTable (s : Slide) : Bool :=
  decide (0 < s.chart_count + s.table_count)

namespace ContextTracker

/-- Modelled from the spec: the configurable multiplier for slides with
charts or tables (§4.2, example value 1.3). -/
def chartTableMultiplier : ℚ := 13 / 10

/-- Modelled from the spec: bound on the stored last-slide summary
(§4.2, truncated if needed). -/
def summaryBound : Nat := 500

/-- Modelled from the spec: `ContextTracker.allocate` (§4.2).  Baseline
is `remaining_budget / remaining_slides`, multiplied by
`chartTableMultiplier` when the slide's element hints flag a chart or a
table, then clamped to the interval from 0 to the budget still unspent
(`total_budget_minutes - elapsed_minutes`), so the run never exceeds
`total_budget_minutes` even if earlier slides overran; the lower clamp
at 0 realises the data-model constraint `duration_minutes ≥ 0` (§3). -/
def allocate (ctx : RunContext) (s : Slide) (remaining_slides : Nat)
    (remaining_budget : ℚ) : ℚ :=
  if remaining_slides = 0 then 0
  else
    let baseline := remaining_budget / (remaining_slides : ℚ)
    let adjusted :=
      if s.hasChartOrTable then baseline * chartTableMultiplier else baseline
    let remaining := ctx.total_budget_minutes - ctx.elapsed_minutes
    let clamped := if adjusted ≤ remaining then adjusted else remaining
    if clamped ≤ 0 then 0 else clamped

/-- Modelled from the spec: the invariant-violation error of
`ContextTracker.fold` (§4.2, §7 `ContextInvariantError`): a duration
that would push `elapsed_minutes` negative is rejected.  The
"non-numeric" guard of §4.2 has no counterpart: ℚ has no NaN. -/
inductive ContextError where
  | negative_duration
deriving DecidableEq

/-- The successful effect of `ContextTracker.fold` (§4.2): add the
result's duration to `elapsed_minutes`, append its concepts to
`taught_concepts`, store the (truncated) narration as the last slide
summary, and append the duration to `slide_time_allocations`. -/
def applyFold (ctx : RunContext) (r : SlideResult) : RunContext :=
  { ctx with
    elapsed_minutes := ctx.elapsed_minutes + r.duration_minutes,
    taught_concepts := ctx.taught_concepts ++ r.concepts_introduced,
    last_slide_summary := r.narration_text.take summaryBound,
    slide_time_allocations :=
      ctx.slide_time_allocations ++ [r.duration_minutes] }

/-- Modelled from the spec: `ContextTracker.fold` (§4.2): rejects (does
not silently clamp) a negative duration, otherwise applies
`applyFold`. -/
def fold (ctx : RunContext) (r : SlideResult) :
    Except ContextError RunContext :=
  if r.duration_minutes < 0 then .error .negative_duration
  else .ok (applyFold ctx r)

end ContextTracker

/-- Modelled from the spec: the AnalysisClient contract (§4.1) seen by
the Orchestrator.  Retries happen inside AnalysisClient, so at this
boundary one call per slide either returns a `SlideAnalysis` or an
`AnalysisErrorKind`; it never raises past the boundary.  A run's client
is a deterministic oracle from the slide and the current context
snapshot. -/
abbrev Analyze := Slide → RunContext → Except AnalysisErrorKind SlideAnalysis

/-- Modelled from the spec: the cooperative cancellation token (§5),
sampled at the top of each per-slide iteration; the argument is the
index of the slide about to be attempted. -/
abbrev CancelToken := Nat → Bool

/-- A cancellation token that never fires. -/
def noCancel : CancelToken := fun _ => false

/-- A cancellation token triggered after the first `k` slides complete:
it fires at the checkpoint of every slide index ≥ `k`. -/
def cancelAfter (k : Nat) : CancelToken := fun i => decide (k ≤ i)

/-- Modelled from the spec: how the per-slide loop ended (§4.4):
normally, at a cancellation checkpoint, or on a fatal
`ContextInvariantError`. -/
inductive RunEnd where
  | finished
  | cancelled
  | fatal
deriving DecidableEq

/-- The failed `SlideResult` recorded for a slide whose analysis
errored (§4.3): no narration, zero duration, no concepts, the error
kind attached. -/
def failedResult (s : Slide) (e : AnalysisErrorKind) : SlideResult :=
  { slide_index := s.index, narration_text := "", duration_minutes := 0,
    concepts_introduced := [], status := .failed, error_kind := some e }

/-- The successful `SlideResult` for a slide (§4.3): the analysis
narration and concepts, with the minutes allocated to the slide. -/
def successResult (s : Slide) (a : SlideAnalysis) (minutes : ℚ) :
    SlideResult :=
  { slide_index := s.index, narration_text := a.narration_text,
    duration_minutes := minutes, concepts_introduced := a.concepts,
    status := .success, error_kind := none }

namespace Orchestrator

/-- Modelled from the spec: one iteration of the Orchestrator loop
(§4.3, §5) over the slide at the head of the remaining sequence, with
the processing of the remaining `nrest` slides abstracted as the
continuation `k` from the context left by this slide.  Check the
cancellation token first; call `ContextTracker.allocate` with the
remaining slide count and remaining budget; call the AnalysisClient
oracle; on success fold the result into the context and record a
success `SlideResult`; on failure record a failed `SlideResult`
carrying the error kind, leave the context untouched (no fold), and
continue with the next slide.  A `fold` rejection is fatal (§7): the
loop stops and nothing is recorded for that slide. -/
def runStep (analyze : Analyze) (cancel : CancelToken) (s : Slide)
    (nrest : Nat)
    (k : RunContext → List (SlideResult × RunContext) × RunContext × RunEnd)
    (ctx : RunContext) :
    List (SlideResult × RunContext) × RunContext × RunEnd :=
  if cancel s.index then ([], ctx, .cancelled)
  else
    let minutes := ContextTracker.allocate ctx s (nrest + 1)
      (ctx.total_budget_minutes - ctx.elapsed_minutes)
    match analyze s ctx with
    | .error e => ((failedResult s e, ctx) :: (k ctx).1, (k ctx).2)
    | .ok a =>
      let r := successResult s a minutes
      match ContextTracker.fold ctx r with
      | .error _ => ([], ctx, .fatal)
      | .ok ctx2 => ((r, ctx2) :: (k ctx2).1, (k ctx2).2)

/-- Modelled from the spec: the Orchestrator per-slide loop (§4.3, §5):
iterate `runStep` over the slides in order.  Returns the trace of
(SlideResult, context after that slide) pairs, the final context, and
how the loop ended. -/
def runSlides (analyze : Analyze) (cancel : CancelToken) :
    List Slide → RunContext →
    List (SlideResult × RunContext) × RunContext × RunEnd
  | [], ctx => ([], ctx, .finished)
  | s :: rest, ctx =>
    runStep analyze cancel s rest.length (runSlides analyze cancel rest) ctx

/-- The neutral placeholder line inserted for a failed slide (§4.3), so
the document's slide numbering stays stable; slide numbers are shown
1-based. -/
def placeholderLine (i : Nat) : String :=
  "[Slide " ++ toString (i + 1) ++ ": analysis unavailable]"

/-- The line a `SlideResult` contributes to the assembled script: its
narration when successful, the neutral placeholder when failed. -/
def resultLine (r : SlideResult) : String :=
  match r.status with
  | .success => r.narration_text
  | .failed => placeholderLine r.slide_index

/-- Modelled from the spec: script assembly (§4.3): concatenate the
per-slide lines in slide order. -/
def assembleScript (rs : List SlideResult) : String :=
  String.intercalate "\n" (rs.map resultLine)

end Orchestrator

/-- Run statistics of a `RunOutcome` (§3): counts of successful and
failed slides.  (The wall-clock `total_elapsed_ms` of §3 is not
representable in a pure embedding and is omitted.) -/
structure RunStats where
  successful_count : Nat
  failed_count : Nat
deriving DecidableEq

/-- Number of results with the given status. -/
def countStatus (st : SlideStatus) (rs : List SlideResult) : Nat :=
  rs.countP (fun r => decide (r.status = st))

/-- Modelled from the spec: `RunOutcome` (§3): the ordered slide
results, the assembled script, and the run statistics. -/
structure RunOutcome where
  slide_results : List SlideResult
  assembled_script : String
  stats : RunStats
deriving DecidableEq

/-- Builds the `RunOutcome` from the ordered slide results (§3, §4.3). -/
def mkOutcome (rs : List SlideResult) : RunOutcome :=
  { slide_results := rs,
    assembled_script := Orchestrator.assembleScript rs,
    stats := { successful_count := countStatus .success rs,
               failed_count := countStatus .failed rs } }

namespace TaskController

/-- Modelled from the spec: the task state machine's transition
relation (§4.4): `Pending → Processing` on the explicit start call, and
`Processing` to each of the three terminal states; nothing else. -/
inductive TaskStep : TaskStatus → TaskStatus → Prop where
  | start : TaskStep .pending .processing
  | complete : TaskStep .processing .completed
  | fail : TaskStep .processing .failed
  | cancel : TaskStep .processing .cancelled

/-- Modelled from the spec: the error of the explicit start call when
the task is not `Pending` (§4.4). -/
inductive StartError where
  | alreadyStarted
deriving DecidableEq

/-- Modelled from the spec: the explicit start call (§4.4,
`Pending → Processing`; fails with `AlreadyStarted` otherwise). -/
def startTask (s : TaskStatus) : Except StartError TaskStatus :=
  if s = .pending then .ok .processing else .error .alreadyStarted

/-- Whether a task status is terminal (§4.4: Completed, Failed and
Cancelled are terminal). -/
def isTerminal (s : TaskStatus) : Bool :=
  match s with
  | .completed => true
  | .failed => true
  | .cancelled => true
  | _ => false

/-- Modelled from the spec: terminal routing out of `Processing`
(§4.4): a cancelled loop goes to `Cancelled`; a fatal invariant error
goes to `Failed`; a finished loop goes to `Completed` exactly when
`failed_count < slide_count` (so total failure, and a zero-slide run,
route to `Failed`). -/
def finalStatus (slideCount : Nat) (ending : RunEnd) (out : RunOutcome) :
    TaskStatus :=
  match ending with
  | .cancelled => .cancelled
  | .fatal => .failed
  | .finished =>
    if out.stats.failed_count < slideCount then .completed else .failed

/-- Modelled from the spec: one TaskController execution (§4.4): run
the Orchestrator over the slide sequence from a fresh context, build
the `RunOutcome` from the recorded results, and route to the terminal
status. -/
def runTask (analyze : Analyze) (cancel : CancelToken)
    (slides : List Slide) (budget : ℚ) : TaskStatus × RunOutcome :=
  let r := Orchestrator.runSlides analyze cancel slides
    (RunContext.init budget)
  let out := mkOutcome (r.1.map Prod.fst)
  (finalStatus slides.length r.2.2 out, out)

/-- Modelled from the spec: the progress event shape (§6):
`{task_id, state, progress_percent, message, slide_index?}`; compare
`interface TaskProgress` in `src/frontend/src/types/index.ts` lines
91-96. -/
structure ProgressEvent where
  task_id : Nat
  state : TaskStatus
  progress_percent : ℚ
  message : String
  slide_index : Option Nat
deriving DecidableEq

/-- The per-slide progress events (§4.4): the event after the
`k`-th processed slide carries state `Processing` and percentage
`100 * (slides processed so far) / total`. -/
def slideEvents (tid : Nat) (total : Nat) :
    Nat → List SlideResult → List ProgressEvent
  | _, [] => []
  | k, r :: rs =>
    { task_id := tid, state := .processing,
      progress_percent := 100 * (((k + 1 : Nat) : ℚ) / (total : ℚ)),
      message := "slide " ++ toString r.slide_index ++ " processed",
      slide_index := some r.slide_index } :: slideEvents tid total (k + 1) rs

/-- The event emitted on the `Pending → Processing` transition (§4.4):
percentage 0, no slide yet. -/
def startEvent (tid : Nat) : ProgressEvent :=
  { task_id := tid, state := .processing, progress_percent := 0,
    message := "run started", slide_index := none }

/-- The event emitted on the terminal transition (§4.4): the terminal
state and the percentage of slides processed. -/
def finEvent (tid total : Nat) (st : TaskStatus) (processed : Nat) :
    ProgressEvent :=
  { task_id := tid, state := st,
    progress_percent := 100 * ((processed : ℚ) / (total : ℚ)),
    message := "run ended", slide_index := none }

/-- Modelled from the spec: the event stream of one run (§4.4, §6): one
event on entering `Processing` (percentage 0), one after each processed
slide, and one for the terminal transition, in state-transition
order. -/
def runEvents (tid : Nat) (analyze : Analyze) (cancel : CancelToken)
    (slides : List Slide) (budget : ℚ) : List ProgressEvent :=
  let r := Orchestrator.runSlides analyze cancel slides
    (RunContext.init budget)
  let results := r.1.map Prod.fst
  let out := mkOutcome results
  startEvent tid ::
  slideEvents tid slides.length 0 results ++
  [finEvent tid slides.length (finalStatus slides.length r.2.2 out)
    results.length]

end TaskController

/-- The ordered slide results of one task execution. -/
def runResults (analyze : Analyze) (cancel : CancelToken)
    (slides : List Slide) (budget : ℚ) : List SlideResult :=
  (TaskController.runTask analyze cancel slides budget).2.slide_results

/-- The terminal status of one task execution. -/
def runStatus (analyze : Analyze) (cancel : CancelToken)
    (slides : List Slide) (budget : ℚ) : TaskStatus :=
  (TaskController.runTask analyze cancel slides budget).1

/-- The per-slide trace (result, context after the slide) of one task
execution started from a fresh context. -/
def runTrace (analyze : Analyze) (cancel : CancelToken)
    (slides : List Slide) (budget : ℚ) :
    List (SlideResult × RunContext) :=
  (Orchestrator.runSlides analyze cancel slides (RunContext.init budget)).1

/-- Sum of the durations of the successful results in a list (§8, time
conservation). -/
def sumSuccDur (rs : List SlideResult) : ℚ :=
  (rs.map (fun r => if r.status = .success then r.duration_minutes else 0)).sum

/-- Context invariant maintained by the run: elapsed time is
non-negative, within the budget, and equals the sum of the recorded
per-slide allocations. -/
def GoodCtx (ctx : RunContext) : Prop :=
  0 ≤ ctx.elapsed_minutes ∧
  ctx.elapsed_minutes ≤ ctx.total_budget_minutes ∧
  ctx.slide_time_allocations.sum = ctx.elapsed_minutes

theorem allocate_nonneg (ctx : RunContext) (s : Slide) (n : Nat) (b : ℚ) :
    0 ≤ ContextTracker.allocate ctx s n b := by
  unfold ContextTracker.allocate
  dsimp only
  split_ifs <;> linarith

theorem allocate_within_budget (ctx : RunContext) (s : Slide) (n : Nat)
    (b : ℚ) (h : ctx.elapsed_minutes ≤ ctx.total_budget_minutes) :
    ctx.elapsed_minutes + ContextTracker.allocate ctx s n b ≤
      ctx.total_budget_minutes := by
  unfold ContextTracker.allocate
  dsimp only
  split_ifs <;> linarith

theorem fold_ok (ctx : RunContext) (r : SlideResult)
    (h : 0 ≤ r.duration_minutes) :
    ContextTracker.fold ctx r = .ok (ContextTracker.applyFold ctx r) := by
  unfold ContextTracker.fold
  rw [if_neg (not_lt.mpr h)]

theorem runSlides_nil (analyze : Analyze) (cancel : CancelToken)
    (ctx : RunContext) :
    Orchestrator.runSlides analyze cancel [] ctx = ([], ctx, .finished) :=
  rfl

theorem runSlides_cons (analyze : Analyze) (cancel : CancelToken)
    (s : Slide) (rest : List Slide) (ctx : RunContext) :
    Orchestrator.runSlides analyze cancel (s :: rest) ctx =
      Orchestrator.runStep analyze cancel s rest.length
        (Orchestrator.runSlides analyze cancel rest) ctx :=
  rfl

theorem runSlides_cons_cancel (analyze : Analyze) (cancel : CancelToken)
    (s : Slide) (rest : List Slide) (ctx : RunContext)
    (h : cancel s.index = true) :
    Orchestrator.runSlides analyze cancel (s :: rest) ctx =
      ([], ctx, .cancelled) := by
  rw [runSlides_cons]
  unfold Orchestrator.runStep
  rw [if_pos h]

theorem runSlides_cons_err (analyze : Analyze) (cancel : CancelToken)
    (s : Slide) (rest : List Slide) (ctx : RunContext)
    (e : AnalysisErrorKind) (hc : cancel s.index = false)
    (ha : analyze s ctx = .error e) :
    Orchestrator.runSlides analyze cancel (s :: rest) ctx =
      ((failedResult s e, ctx) ::
          (Orchestrator.runSlides analyze cancel rest ctx).1,
        (Orchestrator.runSlides analyze cancel rest ctx).2) := by
  rw [runSlides_cons]
  unfold Orchestrator.runStep
  rw [if_neg (by simp [hc]), ha]

theorem runSlides_cons_ok (analyze : Analyze) (cancel : CancelToken)
    (s : Slide) (rest : List Slide) (ctx : RunContext)
    (a : SlideAnalysis) (hc : cancel s.index = false)
    (ha : analyze s ctx = .ok a) :
    Orchestrator.runSlides analyze cancel (s :: rest) ctx =
      ((successResult s a
            (ContextTracker.allocate ctx s (rest.length + 1)
              (ctx.total_budget_minutes - ctx.elapsed_minutes)),
          ContextTracker.applyFold ctx
            (successResult s a
              (ContextTracker.allocate ctx s (rest.length + 1)
                (ctx.total_budget_minutes - ctx.elapsed_minutes)))) ::
          (Orchestrator.runSlides analyze cancel rest
            (ContextTracker.applyFold ctx
              (successResult s a
                (ContextTracker.allocate ctx s (rest.length + 1)
                  (ctx.total_budget_minutes - ctx.elapsed_minutes))))).1,
        (Orchestrator.runSlides analyze cancel rest
          (ContextTracker.applyFold ctx
            (successResult s a
              (ContextTracker.allocate ctx s (rest.length + 1)
                (ctx.total_budget_minutes - ctx.elapsed_minutes))))).2) := by
  rw [runSlides_cons]
  unfold Orchestrator.runStep
  rw [if_neg (by simp [hc]), ha]
  dsimp only
  have hd : (successResult s a
      (ContextTracker.allocate ctx s (rest.length + 1)
        (ctx.total_budget_minutes - ctx.elapsed_minutes))).duration_minutes =
      ContextTracker.allocate ctx s (rest.length + 1)
        (ctx.total_budget_minutes - ctx.elapsed_minutes) := rfl
  rw [fold_ok ctx _ (by rw [hd]; exact allocate_nonneg ctx s _ _)]

theorem runSlides_length_le (analyze : Analyze) (cancel : CancelToken)
    (slides : List Slide) (ctx : RunContext) :
    (Orchestrator.runSlides analyze cancel slides ctx).1.length ≤
      slides.length := by
  induction slides generalizing ctx with
  | nil => simp [runSlides_nil]
  | cons s rest ih =>
    cases hc : cancel s.index with
    | false =>
      cases ha : analyze s ctx with
      | error e =>
        rw [runSlides_cons_err _ _ _ _ _ _ hc ha]
        simpa using ih ctx
      | ok a =>
        rw [runSlides_cons_ok _ _ _ _ _ _ hc ha]
        simpa using ih _
    | true =>
      rw [runSlides_cons_cancel _ _ _ _ _ hc]
      simp

theorem runSlides_map_index (analyze : Analyze) (cancel : CancelToken)
    (slides : List Slide) (ctx : RunContext) :
    ((Orchestrator.runSlides analyze cancel slides ctx).1.map
        (fun p => p.1.slide_index)) =
      ((slides.take
          (Orchestrator.runSlides analyze cancel slides ctx).1.length).map
        Slide.index) := by
  induction slides generalizing ctx with
  | nil => simp [runSlides_nil]
  | cons s rest ih =>
    cases hc : cancel s.index with
    | false =>
      cases ha : analyze s ctx with
      | error e =>
        rw [runSlides_cons_err _ _ _ _ _ _ hc ha]
        simpa [failedResult] using ih ctx
      | ok a =>
        rw [runSlides_cons_ok _ _ _ _ _ _ hc ha]
        simpa [successResult] using ih _
    | true =>
      rw [runSlides_cons_cancel _ _ _ _ _ hc]
      simp

theorem runSlides_end_ne_fatal (analyze : Analyze) (cancel : CancelToken)
    (slides : List Slide) (ctx : RunContext) :
    (Orchestrator.runSlides analyze cancel slides ctx).2.2 ≠ .fatal := by
  induction slides generalizing ctx with
  | nil => simp [runSlides_nil]
  | cons s rest ih =>
    cases hc : cancel s.index with
    | false =>
      cases ha : analyze s ctx with
      | error e =>
        rw [runSlides_cons_err _ _ _ _ _ _ hc ha]
        exact ih ctx
      | ok a =>
        rw [runSlides_cons_ok _ _ _ _ _ _ hc ha]
        exact ih _
    | true =>
      rw [runSlides_cons_cancel _ _ _ _ _ hc]
      simp

theorem runSlides_noCancel_finished (analyze : Analyze)
    (cancel : CancelToken) (slides : List Slide) (ctx : RunContext)
    (h : ∀ s ∈ slides, cancel s.index = false) :
    (Orchestrator.runSlides analyze cancel slides ctx).2.2 = .finished ∧
    (Orchestrator.runSlides analyze cancel slides ctx).1.length =
      slides.length := by
  induction slides generalizing ctx with
  | nil => simp [runSlides_nil]
  | cons s rest ih =>
    have hc : cancel s.index = false := h s (List.mem_cons_self s rest)
    have hr : ∀ x ∈ rest, cancel x.index = false :=
      fun x hx => h x (List.mem_cons_of_mem s hx)
    cases ha : analyze s ctx with
    | error e =>
      rw [runSlides_cons_err _ _ _ _ _ _ hc ha]
      have := ih ctx hr
      simpa using this
    | ok a =>
      rw [runSlides_cons_ok _ _ _ _ _ _ hc ha]
      have := ih (ContextTracker.applyFold ctx
        (successResult s a
          (ContextTracker.allocate ctx s (rest.length + 1)
            (ctx.total_budget_minutes - ctx.elapsed_minutes)))) hr
      simpa using this

theorem runSlides_congr_cancel (analyze : Analyze)
    (c1 c2 : CancelToken) (slides : List Slide) (ctx : RunContext)
    (h : ∀ s ∈ slides, c1 s.index = c2 s.index) :
    Orchestrator.runSlides analyze c1 slides ctx =
      Orchestrator.runSlides analyze c2 slides ctx := by
  induction slides generalizing ctx with
  | nil => simp [runSlides_nil]
  | cons s rest ih =>
    have hs : c1 s.index = c2 s.index := h s (List.mem_cons_self s rest)
    have hr : ∀ x ∈ rest, c1 x.index = c2 x.index :=
      fun x hx => h x (List.mem_cons_of_mem s hx)
    cases hc : c2 s.index with
    | false =>
      cases ha : analyze s ctx with
      | error e =>
        rw [runSlides_cons_err analyze c1 _ _ _ _ (hs.trans hc) ha,
          runSlides_cons_err analyze c2 _ _ _ _ hc ha, ih ctx hr]
      | ok a =>
        rw [runSlides_cons_ok analyze c1 _ _ _ _ (hs.trans hc) ha,
          runSlides_cons_ok analyze c2 _ _ _ _ hc ha, ih _ hr]
    | true =>
      rw [runSlides_cons_cancel analyze c1 _ _ _ (hs.trans hc),
        runSlides_cons_cancel analyze c2 _ _ _ hc]

theorem runSlides_cancelAfter (analyze : Analyze) (K : Nat)
    (slides : List Slide) (m : Nat) (ctx : RunContext)
    (hidx : slides.map Slide.index = List.range' m slides.length) :
    (Orchestrator.runSlides analyze (cancelAfter K) slides ctx).1 =
      (Orchestrator.runSlides analyze noCancel slides ctx).1.take (K - m) ∧
    (Orchestrator.runSlides analyze (cancelAfter K) slides ctx).2.2 =
      (if slides.length ≤ K - m then RunEnd.finished
        else RunEnd.cancelled) := by
  induction slides generalizing m ctx with
  | nil => simp [runSlides_nil]
  | cons s rest ih =>
    have hlen : (s :: rest).length = rest.length + 1 := rfl
    rw [hlen, List.range'_succ] at hidx
    have hs : s.index = m := by
      have := congrArg (fun l => l.headI) hidx
      simpa using this
    have hr : rest.map Slide.index = List.range' (m + 1) rest.length := by
      have := congrArg (fun l => l.tail) hidx
      simpa using this
    by_cases hK : K ≤ m
    · have hc : cancelAfter K s.index = true := by
        simp [cancelAfter, hs, hK]
      rw [runSlides_cons_cancel _ _ _ _ _ hc]
      have hKm : K - m = 0 := Nat.sub_eq_zero_of_le hK
      constructor
      · simp [hKm]
      · simp [hKm]
    · have hc : cancelAfter K s.index = false := by
        simp [cancelAfter, hs]
        omega
      have hcn : noCancel s.index = false := rfl
      have hKm : K - m = (K - (m + 1)) + 1 := by omega
      cases ha : analyze s ctx with
      | error e =>
        rw [runSlides_cons_err _ _ _ _ _ _ hc ha,
          runSlides_cons_err _ _ _ _ _ _ hcn ha]
        obtain ⟨ih1, ih2⟩ := ih (m + 1) ctx hr
        constructor
        · simpa [hKm] using ih1
        · simpa [hKm, Nat.succ_le_succ_iff] using ih2
      | ok a =>
        rw [runSlides_cons_ok _ _ _ _ _ _ hc ha,
          runSlides_cons_ok _ _ _ _ _ _ hcn ha]
        obtain ⟨ih1, ih2⟩ := ih (m + 1) (ContextTracker.applyFold ctx
          (successResult s a
            (ContextTracker.allocate ctx s (rest.length + 1)
              (ctx.total_budget_minutes - ctx.elapsed_minutes)))) hr
        constructor
        · simpa [hKm] using ih1
        · simpa [hKm, Nat.succ_le_succ_iff] using ih2

theorem runSlides_all_failed (analyze : Analyze) (cancel : CancelToken)
    (hfail : ∀ s ctx, ∃ e, analyze s ctx = .error e)
    (slides : List Slide) (ctx : RunContext) :
    ∀ p ∈ (Orchestrator.runSlides analyze cancel slides ctx).1,
      p.1.status = .failed := by
  induction slides generalizing ctx with
  | nil => simp [runSlides_nil]
  | cons s rest ih =>
    cases hc : cancel s.index with
    | false =>
      obtain ⟨e, ha⟩ := hfail s ctx
      rw [runSlides_cons_err _ _ _ _ _ _ hc ha]
      intro p hp
      rcases List.mem_cons.mp hp with h1 | h2
      · rw [h1]; rfl
      · exact ih ctx p h2
    | true =>
      rw [runSlides_cons_cancel _ _ _ _ _ hc]
      simp

@[simp] theorem failedResult_status (s : Slide) (e : AnalysisErrorKind) :
    (failedResult s e).status = .failed := rfl

@[simp] theorem failedResult_duration (s : Slide) (e : AnalysisErrorKind) :
    (failedResult s e).duration_minutes = 0 := rfl

@[simp] theorem successResult_status (s : Slide) (a : SlideAnalysis)
    (m : ℚ) : (successResult s a m).status = .success := rfl

@[simp] theorem successResult_duration (s : Slide) (a : SlideAnalysis)
    (m : ℚ) : (successResult s a m).duration_minutes = m := rfl

@[simp] theorem applyFold_elapsed (ctx : RunContext) (r : SlideResult) :
    (ContextTracker.applyFold ctx r).elapsed_minutes =
      ctx.elapsed_minutes + r.duration_minutes := rfl

@[simp] theorem applyFold_total (ctx : RunContext) (r : SlideResult) :
    (ContextTracker.applyFold ctx r).total_budget_minutes =
      ctx.total_budget_minutes := rfl

@[simp] theorem applyFold_allocs (ctx : RunContext) (r : SlideResult) :
    (ContextTracker.applyFold ctx r).slide_time_allocations =
      ctx.slide_time_allocations ++ [r.duration_minutes] := rfl

@[simp] theorem sumSuccDur_nil : sumSuccDur [] = 0 := rfl

@[simp] theorem sumSuccDur_cons (r : SlideResult) (rs : List SlideResult) :
    sumSuccDur (r :: rs) =
      (if r.status = .success then r.duration_minutes else 0) +
        sumSuccDur rs := by
  simp [sumSuccDur]

theorem goodCtx_step (ctx : RunContext) (s : Slide) (a : SlideAnalysis)
    (n : Nat) (h : GoodCtx ctx) :
    GoodCtx (ContextTracker.applyFold ctx
      (successResult s a (ContextTracker.allocate ctx s n
        (ctx.total_budget_minutes - ctx.elapsed_minutes)))) := by
  obtain ⟨h0, h1, h2⟩ := h
  refine ⟨?_, ?_, ?_⟩
  · have := allocate_nonneg ctx s n
      (ctx.total_budget_minutes - ctx.elapsed_minutes)
    simp only [applyFold_elapsed, successResult_duration]
    linarith
  · have := allocate_within_budget ctx s n
      (ctx.total_budget_minutes - ctx.elapsed_minutes) h1
    simp only [applyFold_elapsed, applyFold_total, successResult_duration]
    linarith
  · simp only [applyFold_elapsed, applyFold_allocs, successResult_duration,
      List.sum_append, List.sum_cons, List.sum_nil, h2]
    ring

theorem runSlides_final_ctx (analyze : Analyze) (cancel : CancelToken)
    (slides : List Slide) (ctx : RunContext) (h : GoodCtx ctx) :
    GoodCtx (Orchestrator.runSlides analyze cancel slides ctx).2.1 ∧
    (Orchestrator.runSlides analyze cancel slides ctx).2.1.total_budget_minutes =
      ctx.total_budget_minutes := by
  induction slides generalizing ctx with
  | nil => simpa [runSlides_nil] using h
  | cons s rest ih =>
    cases hc : cancel s.index with
    | true =>
      rw [runSlides_cons_cancel _ _ _ _ _ hc]
      exact ⟨h, rfl⟩
    | false =>
      cases ha : analyze s ctx with
      | error e =>
        rw [runSlides_cons_err _ _ _ _ _ _ hc ha]
        exact ih ctx h
      | ok a =>
        rw [runSlides_cons_ok _ _ _ _ _ _ hc ha]
        have hg := goodCtx_step ctx s a (rest.length + 1) h
        obtain ⟨ih1, ih2⟩ := ih _ hg
        exact ⟨ih1, by rw [ih2, applyFold_total]⟩

theorem runSlides_elapsed_chain (analyze : Analyze) (cancel : CancelToken)
    (slides : List Slide) (ctx : RunContext) :
    List.Chain (fun a b => a ≤ b) ctx.elapsed_minutes
      ((Orchestrator.runSlides analyze cancel slides ctx).1.map
        (fun p => p.2.elapsed_minutes)) := by
  induction slides generalizing ctx with
  | nil => simp [runSlides_nil]
  | cons s rest ih =>
    cases hc : cancel s.index with
    | true =>
      rw [runSlides_cons_cancel _ _ _ _ _ hc]
      simp
    | false =>
      cases ha : analyze s ctx with
      | error e =>
        rw [runSlides_cons_err _ _ _ _ _ _ hc ha]
        exact List.Chain.cons (le_refl _) (ih ctx)
      | ok a =>
        rw [runSlides_cons_ok _ _ _ _ _ _ hc ha]
        refine List.Chain.cons ?_ (ih _)
        have := allocate_nonneg ctx s (rest.length + 1)
          (ctx.total_budget_minutes - ctx.elapsed_minutes)
        simp only [List.map_cons, applyFold_elapsed, successResult_duration]
        linarith

theorem runSlides_trace_inv (analyze : Analyze) (cancel : CancelToken)
    (slides : List Slide) (ctx : RunContext) (h : GoodCtx ctx) :
    ∀ k (hk : k < (Orchestrator.runSlides analyze cancel slides ctx).1.length),
      ((Orchestrator.runSlides analyze cancel slides ctx).1.get
          ⟨k, hk⟩).2.total_budget_minutes = ctx.total_budget_minutes ∧
      GoodCtx ((Orchestrator.runSlides analyze cancel slides ctx).1.get
          ⟨k, hk⟩).2 ∧
      ((Orchestrator.runSlides analyze cancel slides ctx).1.get
          ⟨k, hk⟩).2.elapsed_minutes =
        ctx.elapsed_minutes +
          sumSuccDur
            (((Orchestrator.runSlides analyze cancel slides ctx).1.take
                (k + 1)).map Prod.fst) := by
  induction slides generalizing ctx with
  | nil => intro k hk; rw [runSlides_nil] at hk; simp at hk
  | cons s rest ih =>
    cases hc : cancel s.index with
    | true =>
      rw [runSlides_cons_cancel _ _ _ _ _ hc]
      intro k hk
      simp at hk
    | false =>
      cases ha : analyze s ctx with
      | error e =>
        rw [runSlides_cons_err _ _ _ _ _ _ hc ha]
        intro k hk
        cases k with
        | zero =>
          refine ⟨rfl, h, ?_⟩
          simp
        | succ k =>
          have hk2 : k < (Orchestrator.runSlides analyze cancel rest ctx).1.length := by
            simpa using hk
          obtain ⟨g1, g2, g3⟩ := ih ctx h k hk2
          refine ⟨g1, g2, ?_⟩
          simpa using g3
      | ok a =>
        rw [runSlides_cons_ok _ _ _ _ _ _ hc ha]
        intro k hk
        have hg := goodCtx_step ctx s a (rest.length + 1) h
        cases k with
        | zero =>
          refine ⟨rfl, hg, ?_⟩
          simp
        | succ k =>
          have hk2 : k < (Orchestrator.runSlides analyze cancel rest
              (ContextTracker.applyFold ctx
                (successResult s a
                  (ContextTracker.allocate ctx s (rest.length + 1)
                    (ctx.total_budget_minutes -
                      ctx.elapsed_minutes))))).1.length := by
            simpa using hk
          obtain ⟨g1, g2, g3⟩ := ih _ hg k hk2
          refine ⟨?_, ?_, ?_⟩
          · simpa using g1
          · simpa using g2
          · dsimp only
            rw [List.get_cons_succ]
            rw [g3]
            simp
            ring

/-- A plain demo slide with a given index and no element hints. -/
def demoSlide (i : Nat) : Slide :=
  { index := i, extracted_text := "", chart_count := 0, table_count := 0,
    image_count := 0 }

/-- A demo slide with a given index whose hints flag one chart. -/
def demoChart (i : Nat) : Slide :=
  { index := i, extracted_text := "", chart_count := 1, table_count := 0,
    image_count := 0 }

/-- The canonical demo deck of `n` plain slides with contiguous 0-based
indices. -/
def demoSlides (n : Nat) : List Slide := (List.range n).map demoSlide

/-- The demo analysis produced for slide `i`. -/
def demoAnalysis (i : Nat) : SlideAnalysis :=
  { narration_text := "Narration for slide " ++ toString i,
    concepts := ["concept " ++ toString i] }

/-- An AnalysisClient oracle that fails permanently on slide index 2
only. -/
def failAt2 : Analyze := fun s _ =>
  if s.index = 2 then .error .permanent else .ok (demoAnalysis s.index)

/-- An AnalysisClient oracle that succeeds on every slide. -/
def allOk : Analyze := fun s _ => .ok (demoAnalysis s.index)

/-- An AnalysisClient oracle that fails on every slide. -/
def allFail : Analyze := fun _ _ => .error .timeout

/-- A demo deck of ten slides where slide 0 is flagged with a chart and
the other nine are plain. -/
def demoChartSlides : List Slide :=
  demoChart 0 :: (List.range 9).map (fun i => demoSlide (i + 1))

/-- A demo task record in the pending state. -/
def demoTask : Task :=
  { id := 1, file_id := 1, status := .pending, progress := 0 }

/-- Number of tasks in a list whose status is `st`. -/
def countWithStatus (st : TaskStatus) (tasks : List Task) : Nat :=
  tasks.countP (fun t => decide (t.status = st))

theorem foldl_statsStep_total (tasks : List Task) (st : TaskStats) :
    (tasks.foldl TaskService.statsStep st).total = st.total := by
  induction tasks generalizing st with
  | nil => rfl
  | cons t ts ih =>
    rw [List.foldl_cons, ih]
    cases h : t.status <;> simp [TaskService.statsStep, h]

theorem foldl_statsStep_pending (tasks : List Task) (st : TaskStats) :
    (tasks.foldl TaskService.statsStep st).pending =
      st.pending + countWithStatus .pending tasks := by
  induction tasks generalizing st with
  | nil => rfl
  | cons t ts ih =>
    rw [List.foldl_cons, ih]
    unfold countWithStatus
    rw [List.countP_cons]
    cases h : t.status <;>
      simp [TaskService.statsStep, h, countWithStatus] <;> omega

theorem foldl_statsStep_processing (tasks : List Task) (st : TaskStats) :
    (tasks.foldl TaskService.statsStep st).processing =
      st.processing + countWithStatus .processing tasks := by
  induction tasks generalizing st with
  | nil => rfl
  | cons t ts ih =>
    rw [List.foldl_cons, ih]
    unfold countWithStatus
    rw [List.countP_cons]
    cases h : t.status <;>
      simp [TaskService.statsStep, h, countWithStatus] <;> omega

theorem foldl_statsStep_completed (tasks : List Task) (st : TaskStats) :
    (tasks.foldl TaskService.statsStep st).completed =
      st.completed + countWithStatus .completed tasks := by
  induction tasks generalizing st with
  | nil => rfl
  | cons t ts ih =>
    rw [List.foldl_cons, ih]
    unfold countWithStatus
    rw [List.countP_cons]
    cases h : t.status <;>
      simp [TaskService.statsStep, h, countWithStatus] <;> omega

theorem foldl_statsStep_failed (tasks : List Task) (st : TaskStats) :
    (tasks.foldl TaskService.statsStep st).failed =
      st.failed + countWithStatus .failed tasks := by
  induction tasks generalizing st with
  | nil => rfl
  | cons t ts ih =>
    rw [List.foldl_cons, ih]
    unfold countWithStatus
    rw [List.countP_cons]
    cases h : t.status <;>
      simp [TaskService.statsStep, h, countWithStatus] <;> omega

theorem count_five_statuses (tasks : List Task) :
    countWithStatus .pending tasks + countWithStatus .processing tasks +
      countWithStatus .completed tasks + countWithStatus .failed tasks +
      countWithStatus .cancelled tasks = tasks.length := by
  induction tasks with
  | nil => rfl
  | cons t ts ih =>
    unfold countWithStatus at ih ⊢
    rw [List.countP_cons, List.countP_cons, List.countP_cons,
      List.countP_cons, List.countP_cons, List.length_cons]
    cases h : t.status <;> simp [h] <;> omega

/-- Claim C9: for every list of tasks fetched by the API,
`TaskService.getTaskStats` returns stats whose `total` equals the number
of tasks, whose `pending`, `processing`, `completed` and `failed`
counters each count exactly the tasks with that status, and cancelled
tasks are counted in `total` but in none of the four counters, so the
four counters sum to at most `total`, with equality exactly when no
task is cancelled. -/
theorem C9_task_stats (tasks : List Task) :
    (TaskService.getTaskStats tasks).total = tasks.length ∧
    (TaskService.getTaskStats tasks).pending =
      countWithStatus .pending tasks ∧
    (TaskService.getTaskStats tasks).processing =
      countWithStatus .processing tasks ∧
    (TaskService.getTaskStats tasks).completed =
      countWithStatus .completed tasks ∧
    (TaskService.getTaskStats tasks).failed =
      countWithStatus .failed tasks ∧
    (TaskService.getTaskStats tasks).pending +
        (TaskService.getTaskStats tasks).processing +
        (TaskService.getTaskStats tasks).completed +
        (TaskService.getTaskStats tasks).failed ≤
      (TaskService.getTaskStats tasks).total ∧
    ((TaskService.getTaskStats tasks).pending +
          (TaskService.getTaskStats tasks).processing +
          (TaskService.getTaskStats tasks).completed +
          (TaskService.getTaskStats tasks).failed =
        (TaskService.getTaskStats tasks).total ↔
      ∀ t ∈ tasks, t.status ≠ .cancelled) := by
  have htot : (TaskService.getTaskStats tasks).total = tasks.length := by
    unfold TaskService.getTaskStats
    rw [foldl_statsStep_total]
  have hp : (TaskService.getTaskStats tasks).pending =
      countWithStatus .pending tasks := by
    unfold TaskService.getTaskStats
    rw [foldl_statsStep_pending]
    simp
  have hpr : (TaskService.getTaskStats tasks).processing =
      countWithStatus .processing tasks := by
    unfold TaskService.getTaskStats
    rw [foldl_statsStep_processing]
    simp
  have hco : (TaskService.getTaskStats tasks).completed =
      countWithStatus .completed tasks := by
    unfold TaskService.getTaskStats
    rw [foldl_statsStep_completed]
    simp
  have hfa : (TaskService.getTaskStats tasks).failed =
      countWithStatus .failed tasks := by
    unfold TaskService.getTaskStats
    rw [foldl_statsStep_failed]
    simp
  have hsum := count_five_statuses tasks
  refine ⟨htot, hp, hpr, hco, hfa, ?_, ?_⟩
  · rw [htot, hp, hpr, hco, hfa]
    omega
  · rw [htot, hp, hpr, hco, hfa]
    have hzero : countWithStatus .cancelled tasks = 0 ↔
        ∀ t ∈ tasks, t.status ≠ .cancelled := by
      unfold countWithStatus
      rw [List.countP_eq_zero]
      simp
    constructor
    · intro he
      exact hzero.mp (by omega)
    · intro hnc
      have := hzero.mpr hnc
      omega

/-- Witness for C9 at a concrete task list. -/
theorem C9_task_stats_witness :
    (TaskService.getTaskStats [demoTask]).total = [demoTask].length :=
  (C9_task_stats [demoTask]).1

/-- Claim C10: `TaskService.createAndStartTask` never propagates a
failure of the start call — once task creation succeeds it returns the
created task together with `started = true` when starting succeeded and
`started = false` when starting threw; the task is returned in both
cases. -/
theorem C10_create_and_start (create : Except TaskService.ApiError Task)
    (start : Task → Except TaskService.ApiError Unit) (task : Task)
    (h : create = .ok task) :
    ∃ started : Bool,
      TaskService.createAndStartTask create start =
        .ok (task, started) ∧
      (started = true ↔ ∃ u, start task = .ok u) := by
  subst h
  cases hs : start task with
  | ok u =>
    refine ⟨true, ?_, by simp [hs]⟩
    simp [TaskService.createAndStartTask, hs]
  | error e =>
    refine ⟨false, ?_, by simp [hs]⟩
    simp [TaskService.createAndStartTask, hs]

/-- Witness for C10: a start call that throws still returns the created
task with `started = false`. -/
theorem C10_create_and_start_witness :
    ∃ started : Bool,
      TaskService.createAndStartTask (Except.ok demoTask)
          (fun _ => Except.error .networkError) =
        .ok (demoTask, started) ∧
      (started = true ↔ ∃ u,
        (fun _ => (Except.error TaskService.ApiError.networkError :
          Except TaskService.ApiError Unit)) demoTask = .ok u) :=
  C10_create_and_start (Except.ok demoTask)
    (fun _ => Except.error .networkError) demoTask rfl

/-- Claim C4: a task's state is always one of exactly five values;
the only transitions of the state machine are `Pending → Processing`
and `Processing → {Completed, Failed, Cancelled}`; the three terminal
states have no outgoing transition. -/
theorem C4_state_machine :
    (∀ s : TaskStatus, s = .pending ∨ s = .processing ∨ s = .completed ∨
      s = .failed ∨ s = .cancelled) ∧
    (∀ s t : TaskStatus, TaskController.TaskStep s t ↔
      ((s = .pending ∧ t = .processing) ∨
        (s = .processing ∧
          (t = .completed ∨ t = .failed ∨ t = .cancelled)))) ∧
    (∀ t u : TaskStatus, TaskController.isTerminal t = true →
      ¬ TaskController.TaskStep t u) := by
  refine ⟨?_, ?_, ?_⟩
  · intro s
    cases s <;> simp
  · intro s t
    constructor
    · intro h
      cases h <;> simp
    · rintro (⟨rfl, rfl⟩ | ⟨rfl, rfl | rfl | rfl⟩)
      · exact .start
      · exact .complete
      · exact .fail
      · exact .cancel
  · intro t u ht h
    cases h <;> simp [TaskController.isTerminal] at ht

/-- Witness for C4: `Completed` has no outgoing transition. -/
theorem C4_state_machine_witness :
    ¬ TaskController.TaskStep .completed .processing :=
  C4_state_machine.2.2 .completed .processing rfl

theorem runTask_eq (analyze : Analyze) (cancel : CancelToken)
    (slides : List Slide) (budget : ℚ) :
    TaskController.runTask analyze cancel slides budget =
      (TaskController.finalStatus slides.length
          (Orchestrator.runSlides analyze cancel slides
            (RunContext.init budget)).2.2
          (mkOutcome
            ((Orchestrator.runSlides analyze cancel slides
              (RunContext.init budget)).1.map Prod.fst)),
        mkOutcome
          ((Orchestrator.runSlides analyze cancel slides
            (RunContext.init budget)).1.map Prod.fst)) :=
  rfl

/-- Claim C1: partial-failure tolerance — when the AnalysisClient fails
on a slide the Orchestrator appends a failed `SlideResult` carrying the
error kind, does not call `ContextTracker.fold` for that slide (the
context is left unchanged), and continues with the next slide; and for
the 5-slide demo deck where analysis fails permanently on slide index 2
only, the run ends `Completed` with `failed_count = 1`,
`successful_count = 4`, and the assembled script holds a placeholder for
slide 2 and real narration for the other four, in slide order. -/
theorem C1_partial_failure :
    (∀ (analyze : Analyze) (cancel : CancelToken) (s : Slide)
        (rest : List Slide) (ctx : RunContext) (e : AnalysisErrorKind),
        cancel s.index = false → analyze s ctx = .error e →
        Orchestrator.runSlides analyze cancel (s :: rest) ctx =
          ((failedResult s e, ctx) ::
              (Orchestrator.runSlides analyze cancel rest ctx).1,
            (Orchestrator.runSlides analyze cancel rest ctx).2)) ∧
    runStatus failAt2 noCancel (demoSlides 5) 30 = .completed ∧
    (TaskController.runTask failAt2 noCancel
      (demoSlides 5) 30).2.stats.failed_count = 1 ∧
    (TaskController.runTask failAt2 noCancel
      (demoSlides 5) 30).2.stats.successful_count = 4 ∧
    (TaskController.runTask failAt2 noCancel
        (demoSlides 5) 30).2.assembled_script =
      "Narration for slide 0\nNarration for slide 1\n[Slide 3: analysis unavailable]\nNarration for slide 3\nNarration for slide 4" := by
  refine ⟨?_, ?_, ?_, ?_, ?_⟩
  · intro analyze cancel s rest ctx e hc ha
    exact runSlides_cons_err analyze cancel s rest ctx e hc ha
  all_goals set_option maxRecDepth 8000 in with_unfolding_all decide

/-- Witness for C1 applying the per-slide failure step at a concrete
slide. -/
theorem C1_partial_failure_witness :
    Orchestrator.runSlides failAt2 noCancel [demoSlide 2]
        (RunContext.init 30) =
      ((failedResult (demoSlide 2) .permanent, RunContext.init 30) ::
          (Orchestrator.runSlides failAt2 noCancel []
            (RunContext.init 30)).1,
        (Orchestrator.runSlides failAt2 noCancel []
          (RunContext.init 30)).2) :=
  C1_partial_failure.1 failAt2 noCancel (demoSlide 2) []
    (RunContext.init 30) .permanent rfl rfl

/-- Claim C2: ordering invariant — for an input deck with contiguous
0-based indices, the recorded slide results carry exactly the indices
`0, …, k-1` of the attempted prefix, in strictly ascending order with
no duplicates and no gaps. -/
theorem C2_ordering (analyze : Analyze) (cancel : CancelToken)
    (slides : List Slide) (budget : ℚ)
    (h : slides.map Slide.index = List.range slides.length) :
    (runResults analyze cancel slides budget).map
        SlideResult.slide_index =
      List.range (runResults analyze cancel slides budget).length ∧
    (runResults analyze cancel slides budget).length ≤ slides.length ∧
    List.Pairwise (fun a b => a < b)
      ((runResults analyze cancel slides budget).map
        SlideResult.slide_index) := by
  have hres : runResults analyze cancel slides budget =
      (Orchestrator.runSlides analyze cancel slides
        (RunContext.init budget)).1.map Prod.fst := rfl
  have hlen := runSlides_length_le analyze cancel slides
    (RunContext.init budget)
  have hmap := runSlides_map_index analyze cancel slides
    (RunContext.init budget)
  have hlen2 : (runResults analyze cancel slides budget).length =
      (Orchestrator.runSlides analyze cancel slides
        (RunContext.init budget)).1.length := by
    rw [hres, List.length_map]
  have hkey : (runResults analyze cancel slides budget).map
      SlideResult.slide_index =
      List.range (runResults analyze cancel slides budget).length := by
    rw [hres, List.map_map]
    have : (SlideResult.slide_index ∘ Prod.fst) =
        (fun p : SlideResult × RunContext => p.1.slide_index) := rfl
    rw [this, hmap, List.map_take, h, List.take_range]
    rw [List.length_map, inf_eq_left.mpr hlen]
  refine ⟨hkey, ?_, ?_⟩
  · rw [hlen2]; exact hlen
  · rw [hkey]
    exact List.pairwise_lt_range _
/-- Witness for C2 at a concrete three-slide deck. -/
theorem C2_ordering_witness :
    (runResults allOk noCancel (demoSlides 3) 30).map
        SlideResult.slide_index =
      List.range (runResults allOk noCancel (demoSlides 3) 30).length :=
  (C2_ordering allOk noCancel (demoSlides 3) 30 (by decide)).1

/-- Claim C5: total failure routes to `Failed` — a run in which the
AnalysisClient fails on every slide ends in `Failed`, never
`Completed`; and `Processing` transitions to `Completed` only when
`failed_count < slide_count`. -/
theorem C5_total_failure :
    (∀ (analyze : Analyze) (cancel : CancelToken) (slides : List Slide)
        (budget : ℚ),
        (∀ s ctx, ∃ e, analyze s ctx = .error e) →
        (∀ i, cancel i = false) →
        runStatus analyze cancel slides budget = .failed) ∧
    (∀ (analyze : Analyze) (cancel : CancelToken) (slides : List Slide)
        (budget : ℚ),
        runStatus analyze cancel slides budget = .completed →
        (TaskController.runTask analyze cancel slides
          budget).2.stats.failed_count < slides.length) := by
  constructor
  · intro analyze cancel slides budget hfail hnc
    have hnoc : ∀ s ∈ slides, cancel s.index = false :=
      fun s _ => hnc s.index
    obtain ⟨hfin, hlen⟩ := runSlides_noCancel_finished analyze cancel
      slides (RunContext.init budget) hnoc
    have hall := runSlides_all_failed analyze cancel hfail slides
      (RunContext.init budget)
    have hcount : countStatus .failed
        ((Orchestrator.runSlides analyze cancel slides
          (RunContext.init budget)).1.map Prod.fst) =
        ((Orchestrator.runSlides analyze cancel slides
          (RunContext.init budget)).1.map Prod.fst).length := by
      unfold countStatus
      rw [List.countP_eq_length]
      intro r hr
      obtain ⟨p, hp, rfl⟩ := List.mem_map.mp hr
      simp [hall p hp]
    unfold runStatus
    rw [runTask_eq]
    unfold TaskController.finalStatus
    rw [hfin]
    have hcond : ¬ (mkOutcome
        ((Orchestrator.runSlides analyze cancel slides
          (RunContext.init budget)).1.map
          Prod.fst)).stats.failed_count < slides.length := by
      show ¬ countStatus .failed _ < slides.length
      rw [hcount, List.length_map, hlen]
      exact lt_irrefl _
    simp [hcond]
  · intro analyze cancel slides budget hc
    unfold runStatus at hc
    rw [runTask_eq] at hc
    unfold TaskController.finalStatus at hc
    cases hend : (Orchestrator.runSlides analyze cancel slides
        (RunContext.init budget)).2.2 with
    | cancelled => rw [hend] at hc; simp at hc
    | fatal => rw [hend] at hc; simp at hc
    | finished =>
      rw [hend] at hc
      by_cases hlt : (mkOutcome
          ((Orchestrator.runSlides analyze cancel slides
            (RunContext.init budget)).1.map
            Prod.fst)).stats.failed_count < slides.length
      · rw [runTask_eq]
        exact hlt
      · rw [if_neg hlt] at hc
        simp at hc

/-- Witness for C5: the all-failing oracle over three slides ends in
`Failed`. -/
theorem C5_total_failure_witness :
    runStatus allFail noCancel (demoSlides 3) 30 = .failed :=
  C5_total_failure.1 allFail noCancel (demoSlides 3) 30
    (fun _ _ => ⟨.timeout, rfl⟩) (fun _ => rfl)

/-- Claim C6: cancellation checkpoint — the token is sampled only at
the top of each per-slide iteration; for a deck with contiguous 0-based
indices and a token triggered after the first `k` of `N` slides
complete (`k < N`), the task ends `Cancelled` with exactly `k` slide
results, slide `k` is never attempted, and the results are exactly the
first `k` results of the uncancelled run (the partial outcome is
preserved, not discarded). -/
theorem C6_cancellation (analyze : Analyze) (slides : List Slide)
    (budget : ℚ) (k : Nat)
    (hidx : slides.map Slide.index = List.range slides.length)
    (hk : k < slides.length) :
    runStatus analyze (cancelAfter k) slides budget = .cancelled ∧
    (runResults analyze (cancelAfter k) slides budget).length = k ∧
    runResults analyze (cancelAfter k) slides budget =
      ((Orchestrator.runSlides analyze noCancel slides
        (RunContext.init budget)).1.map Prod.fst).take k := by
  obtain ⟨h1, h2⟩ := runSlides_cancelAfter analyze k slides 0
    (RunContext.init budget) (by rw [hidx, List.range_eq_range'])
  have hnoc : ∀ s ∈ slides, noCancel s.index = false := fun s _ => rfl
  obtain ⟨hfin, hlen⟩ := runSlides_noCancel_finished analyze noCancel
    slides (RunContext.init budget) hnoc
  rw [Nat.sub_zero] at h1 h2
  have hend : (Orchestrator.runSlides analyze (cancelAfter k) slides
      (RunContext.init budget)).2.2 = RunEnd.cancelled := by
    rw [h2, if_neg (by omega)]
  refine ⟨?_, ?_, ?_⟩
  · unfold runStatus
    rw [runTask_eq]
    unfold TaskController.finalStatus
    rw [hend]
  · show ((Orchestrator.runSlides analyze (cancelAfter k) slides
      (RunContext.init budget)).1.map Prod.fst).length = k
    rw [List.length_map, h1, List.length_take, hlen]
    omega
  · show (Orchestrator.runSlides analyze (cancelAfter k) slides
      (RunContext.init budget)).1.map Prod.fst = _
    rw [h1, List.map_take]

/-- Witness for C6 at a concrete five-slide deck cancelled after two
slides. -/
theorem C6_cancellation_witness :
    runStatus allOk (cancelAfter 2) (demoSlides 5) 30 = .cancelled :=
  (C6_cancellation allOk (demoSlides 5) 30 2 (by decide) (by decide)).1

/-- Claim C3: time conservation — at every point of a run (after each
processed slide) the sum of `duration_minutes` over the successful
results so far equals the tracker's `elapsed_minutes`, `elapsed_minutes`
never exceeds the total budget, and it is monotonically non-decreasing
along the run. -/
theorem C3_time_conservation (analyze : Analyze) (cancel : CancelToken)
    (slides : List Slide) (budget : ℚ) (hb : 0 ≤ budget) :
    (∀ k (hk : k < (runTrace analyze cancel slides budget).length),
        sumSuccDur (((runTrace analyze cancel slides budget).take
            (k + 1)).map Prod.fst) =
          ((runTrace analyze cancel slides budget).get
            ⟨k, hk⟩).2.elapsed_minutes ∧
        ((runTrace analyze cancel slides budget).get
          ⟨k, hk⟩).2.elapsed_minutes ≤ budget) ∧
    List.Pairwise (fun a b => a ≤ b)
      ((runTrace analyze cancel slides budget).map
        (fun p => p.2.elapsed_minutes)) := by
  have hg : GoodCtx (RunContext.init budget) := ⟨le_refl 0, hb, rfl⟩
  unfold runTrace
  constructor
  · intro k hk
    obtain ⟨g1, g2, g3⟩ := runSlides_trace_inv analyze cancel slides
      (RunContext.init budget) hg k hk
    constructor
    · rw [g3]
      show _ = (RunContext.init budget).elapsed_minutes + _
      rw [show (RunContext.init budget).elapsed_minutes = 0 from rfl]
      rw [zero_add]
    · have he := g2.2.1
      rw [g1] at he
      exact he
  · have hch := runSlides_elapsed_chain analyze cancel slides
      (RunContext.init budget)
    have hpw := List.chain_iff_pairwise.mp hch
    exact (List.pairwise_cons.mp hpw).2

/-- Witness for C3 at a concrete two-slide run. -/
theorem C3_time_conservation_witness :
    List.Pairwise (fun a b => a ≤ b)
      ((runTrace allOk noCancel (demoSlides 2) 30).map
        (fun p => p.2.elapsed_minutes)) :=
  (C3_time_conservation allOk noCancel (demoSlides 2) 30
    (by with_unfolding_all decide)).2

/-- Claim C7: time allocation — with `remaining_slides > 0` the
allocation is the baseline `remaining_budget / remaining_slides`,
multiplied by the configurable 1.3 factor when the slide's hints flag a
chart or table (whenever the clamp is inactive), and the cumulative
allocation of a run never exceeds the total budget; with a 30-minute
budget and 10 equal slides the baseline is 3 minutes, a chart slide
receives 3.9 minutes, and the ten allocations sum to at most 30. -/
theorem C7_allocation :
    (∀ (ctx : RunContext) (s : Slide) (n : Nat) (b : ℚ),
        0 < n → s.hasChartOrTable = false →
        0 ≤ b / (n : ℚ) →
        b / (n : ℚ) ≤ ctx.total_budget_minutes - ctx.elapsed_minutes →
        ContextTracker.allocate ctx s n b = b / (n : ℚ)) ∧
    (∀ (ctx : RunContext) (s : Slide) (n : Nat) (b : ℚ),
        0 < n → s.hasChartOrTable = true →
        0 ≤ b / (n : ℚ) * ContextTracker.chartTableMultiplier →
        b / (n : ℚ) * ContextTracker.chartTableMultiplier ≤
          ctx.total_budget_minutes - ctx.elapsed_minutes →
        ContextTracker.allocate ctx s n b =
          b / (n : ℚ) * ContextTracker.chartTableMultiplier) ∧
    (∀ (analyze : Analyze) (cancel : CancelToken) (slides : List Slide)
        (budget : ℚ), 0 ≤ budget →
        ((Orchestrator.runSlides analyze cancel slides
          (RunContext.init
            budget)).2.1).slide_time_allocations.sum ≤ budget) ∧
    ContextTracker.allocate (RunContext.init 30) (demoSlide 0) 10 30 =
      3 ∧
    ContextTracker.allocate (RunContext.init 30) (demoChart 0) 10 30 =
      39 / 10 ∧
    ((Orchestrator.runSlides allOk noCancel demoChartSlides
      (RunContext.init 30)).2.1).slide_time_allocations.sum ≤ 30 := by
  refine ⟨?_, ?_, ?_, ?_, ?_, ?_⟩
  · intro ctx s n b hn hfl h0 hle
    unfold ContextTracker.allocate
    rw [if_neg (Nat.pos_iff_ne_zero.mp hn)]
    dsimp only
    rw [hfl]
    simp only [Bool.false_eq_true, if_false]
    rw [if_pos hle]
    split_ifs with hz
    · linarith
    · rfl
  · intro ctx s n b hn hfl h0 hle
    unfold ContextTracker.allocate
    rw [if_neg (Nat.pos_iff_ne_zero.mp hn)]
    dsimp only
    rw [hfl]
    simp only [if_true]
    rw [if_pos hle]
    split_ifs with hz
    · linarith
    · rfl
  · intro analyze cancel slides budget hb
    have hg : GoodCtx (RunContext.init budget) := ⟨le_refl 0, hb, rfl⟩
    obtain ⟨⟨hf0, hf1, hf2⟩, hft⟩ := runSlides_final_ctx analyze cancel
      slides (RunContext.init budget) hg
    rw [hf2]
    exact hf1.trans (le_of_eq hft)
  · set_option maxRecDepth 8000 in with_unfolding_all decide
  · set_option maxRecDepth 8000 in with_unfolding_all decide
  · set_option maxRecDepth 8000 in with_unfolding_all decide

/-- Witness for C7 applying the baseline allocation rule at a concrete
context. -/
theorem C7_allocation_witness :
    ContextTracker.allocate (RunContext.init 30) (demoSlide 3) 5 30 =
      30 / ((5 : Nat) : ℚ) :=
  C7_allocation.1 (RunContext.init 30) (demoSlide 3) 5 30 (by decide)
    rfl (by with_unfolding_all decide) (by with_unfolding_all decide)

theorem slideEvents_mem (tid total : Nat) (rs : List SlideResult) :
    ∀ (k : Nat), k + rs.length ≤ total →
      ∀ e ∈ TaskController.slideEvents tid total k rs,
        e.task_id = tid ∧ e.state = .processing ∧
        0 ≤ e.progress_percent ∧ e.progress_percent ≤ 100 := by
  induction rs with
  | nil =>
    intro k hk e he
    simp [TaskController.slideEvents] at he
  | cons r rs ih =>
    intro k hk e he
    rw [TaskController.slideEvents] at he
    rcases List.mem_cons.mp he with h1 | h2
    · subst h1
      have htot : 0 < (total : ℚ) := by
        have : 0 < total := by
          simp only [List.length_cons] at hk
          omega
        exact_mod_cast this
      refine ⟨rfl, rfl, ?_, ?_⟩
      · have : (0 : ℚ) ≤ ((k + 1 : Nat) : ℚ) / (total : ℚ) :=
          div_nonneg (by exact_mod_cast Nat.zero_le _) (le_of_lt htot)
        dsimp only
        linarith
      · have hle : ((k + 1 : Nat) : ℚ) ≤ (total : ℚ) := by
          have : k + 1 ≤ total := by
            simp only [List.length_cons] at hk
            omega
          exact_mod_cast this
        have : ((k + 1 : Nat) : ℚ) / (total : ℚ) ≤ 1 :=
          (div_le_one htot).mpr hle
        dsimp only
        linarith
    · exact ih (k + 1) (by simp only [List.length_cons] at hk; omega) e h2

theorem slideEvents_chain (tid total : Nat) (rs : List SlideResult) :
    ∀ (k : Nat), k + rs.length ≤ total →
      List.Chain (fun a b => a ≤ b)
        (100 * ((k : ℚ) / (total : ℚ)))
        (((TaskController.slideEvents tid total k rs).map
            (fun e => e.progress_percent)) ++
          [100 * (((k + rs.length : Nat) : ℚ) / (total : ℚ))]) := by
  induction rs with
  | nil =>
    intro k hk
    rw [TaskController.slideEvents]
    simp only [List.map_nil, List.nil_append, List.length_nil,
      Nat.add_zero]
    exact List.Chain.cons (le_refl _) List.Chain.nil
  | cons r rs ih =>
    intro k hk
    rw [TaskController.slideEvents, List.map_cons, List.cons_append]
    have htot : 0 < (total : ℚ) := by
      have : 0 < total := by
        simp only [List.length_cons] at hk
        omega
      exact_mod_cast this
    refine List.Chain.cons ?_ ?_
    · have hle : ((k : Nat) : ℚ) ≤ ((k + 1 : Nat) : ℚ) := by
        exact_mod_cast Nat.le_succ k
      have hdiv : ((k : Nat) : ℚ) / (total : ℚ) ≤
          ((k + 1 : Nat) : ℚ) / (total : ℚ) :=
        (div_le_div_iff_of_pos_right htot).mpr hle
      dsimp only
      linarith
    · have harith : k + (r :: rs).length = (k + 1) + rs.length := by
        simp only [List.length_cons]
        omega
      rw [harith]
      exact ih (k + 1) (by simp only [List.length_cons] at hk; omega)

theorem cons_append_singleton_getLast {α : Type} (a b : α)
    (l : List α) : (a :: (l ++ [b])).getLast? = some b := by
  rw [← List.cons_append]
  exact List.getLast?_concat _

theorem cons_append_singleton_dropLast {α : Type} (a b : α)
    (l : List α) : (a :: (l ++ [b])).dropLast = a :: l := by
  rw [← List.cons_append]
  exact List.dropLast_concat

theorem finalStatus_terminal (n : Nat) (e : RunEnd) (out : RunOutcome) :
    TaskController.isTerminal (TaskController.finalStatus n e out) =
      true := by
  cases e with
  | cancelled => rfl
  | fatal => rfl
  | finished =>
    unfold TaskController.finalStatus
    split_ifs <;> rfl

theorem runEvents_eq (tid : Nat) (analyze : Analyze)
    (cancel : CancelToken) (slides : List Slide) (budget : ℚ) :
    TaskController.runEvents tid analyze cancel slides budget =
      TaskController.startEvent tid ::
      TaskController.slideEvents tid slides.length 0
        ((Orchestrator.runSlides analyze cancel slides
          (RunContext.init budget)).1.map Prod.fst) ++
      [TaskController.finEvent tid slides.length
        (TaskController.finalStatus slides.length
          (Orchestrator.runSlides analyze cancel slides
            (RunContext.init budget)).2.2
          (mkOutcome
            ((Orchestrator.runSlides analyze cancel slides
              (RunContext.init budget)).1.map Prod.fst)))
        ((Orchestrator.runSlides analyze cancel slides
          (RunContext.init budget)).1.map Prod.fst).length] :=
  rfl

/-- Claim C8: progress events — every emitted event carries the task
id, a percentage between 0 and 100, and the percentages are
monotonically non-decreasing along the stream; the stream is in
state-transition order: it is non-empty, every event before the last
carries `Processing`, and the last event carries the run's terminal
state — a terminal transition is never skipped. -/
theorem C8_progress_events (tid : Nat) (analyze : Analyze)
    (cancel : CancelToken) (slides : List Slide) (budget : ℚ) :
    (∀ e ∈ TaskController.runEvents tid analyze cancel slides budget,
        e.task_id = tid ∧ 0 ≤ e.progress_percent ∧
        e.progress_percent ≤ 100) ∧
    List.Chain' (fun a b => a ≤ b)
      ((TaskController.runEvents tid analyze cancel slides budget).map
        (fun e => e.progress_percent)) ∧
    (∃ ev, (TaskController.runEvents tid analyze cancel slides
          budget).getLast? = some ev ∧
        ev.state = runStatus analyze cancel slides budget ∧
        TaskController.isTerminal ev.state = true) ∧
    (∀ e ∈ (TaskController.runEvents tid analyze cancel slides
        budget).dropLast, e.state = .processing) := by
  have hLN : ((Orchestrator.runSlides analyze cancel slides
      (RunContext.init budget)).1.map Prod.fst).length ≤
      slides.length := by
    rw [List.length_map]
    exact runSlides_length_le analyze cancel slides (RunContext.init budget)
  have hfin_nonneg : (0 : ℚ) ≤ 100 *
      ((((Orchestrator.runSlides analyze cancel slides
          (RunContext.init budget)).1.map Prod.fst).length : ℚ) /
        (slides.length : ℚ)) := by
    have : (0 : ℚ) ≤ (((Orchestrator.runSlides analyze cancel slides
        (RunContext.init budget)).1.map Prod.fst).length : ℚ) /
        (slides.length : ℚ) :=
      div_nonneg (by exact_mod_cast Nat.zero_le _)
        (by exact_mod_cast Nat.zero_le _)
    linarith
  have hfin_le : 100 *
      ((((Orchestrator.runSlides analyze cancel slides
          (RunContext.init budget)).1.map Prod.fst).length : ℚ) /
        (slides.length : ℚ)) ≤ 100 := by
    by_cases hz : slides.length = 0
    · have hL : ((Orchestrator.runSlides analyze cancel slides
          (RunContext.init budget)).1.map Prod.fst).length = 0 := by
        omega
      rw [hL, hz]
      norm_num
    · have htot : 0 < ((slides.length : Nat) : ℚ) := by
        exact_mod_cast Nat.pos_of_ne_zero hz
      have : ((((Orchestrator.runSlides analyze cancel slides
          (RunContext.init budget)).1.map Prod.fst).length : Nat) : ℚ) /
          (slides.length : ℚ) ≤ 1 :=
        (div_le_one htot).mpr (by exact_mod_cast hLN)
      linarith
  refine ⟨?_, ?_, ?_, ?_⟩
  · intro e he
    rw [runEvents_eq] at he
    rcases List.mem_cons.mp he with h1 | h2
    · subst h1
      refine ⟨rfl, le_refl 0, by norm_num [TaskController.startEvent]⟩
    · rcases List.mem_append.mp h2 with h3 | h4
      · have := slideEvents_mem tid slides.length
          ((Orchestrator.runSlides analyze cancel slides
            (RunContext.init budget)).1.map Prod.fst) 0
          (by simpa using hLN) e h3
        exact ⟨this.1, this.2.2.1, this.2.2.2⟩
      · have h5 : e = _ := List.mem_singleton.mp h4
        subst h5
        exact ⟨rfl, hfin_nonneg, hfin_le⟩
  · rw [runEvents_eq, List.cons_append, List.map_cons]
    show List.Chain _ _ _
    rw [List.map_append]
    have hch := slideEvents_chain tid slides.length
      ((Orchestrator.runSlides analyze cancel slides
        (RunContext.init budget)).1.map Prod.fst) 0
      (by simpa using hLN)
    simp only [Nat.cast_zero, zero_div, mul_zero, Nat.zero_add] at hch
    simpa [TaskController.startEvent, TaskController.finEvent]
      using hch
  · have heq : (TaskController.runEvents tid analyze cancel slides
        budget).getLast? =
        some (TaskController.finEvent tid slides.length
          (TaskController.finalStatus slides.length
            (Orchestrator.runSlides analyze cancel slides
              (RunContext.init budget)).2.2
            (mkOutcome
              ((Orchestrator.runSlides analyze cancel slides
                (RunContext.init budget)).1.map Prod.fst)))
          ((Orchestrator.runSlides analyze cancel slides
            (RunContext.init budget)).1.map Prod.fst).length) := by
      rw [runEvents_eq]
      exact cons_append_singleton_getLast _ _ _
    exact ⟨_, heq, rfl, finalStatus_terminal _ _ _⟩
  · intro e he
    rw [runEvents_eq, List.cons_append, cons_append_singleton_dropLast]
      at he
    rcases List.mem_cons.mp he with h1 | h2
    · subst h1; rfl
    · exact (slideEvents_mem tid slides.length
        ((Orchestrator.runSlides analyze cancel slides
          (RunContext.init budget)).1.map Prod.fst) 0
        (by simpa using hLN) e h2).2.1

/-- Witness for C8 at a concrete run. -/
theorem C8_progress_events_witness :
    ∀ e ∈ TaskController.runEvents 7 allOk noCancel (demoSlides 2) 30,
      e.task_id = 7 ∧ 0 ≤ e.progress_percent ∧
      e.progress_percent ≤ 100 :=
  (C8_progress_events 7 allOk noCancel (demoSlides 2) 30).1

end PPT
